import Mathlib

/-!
# A verification model of the sf1r-lite ingestion core

This file gives a shallow embedding, in Lean 4, of the ingestion /
indexing / recommendation core of the sf1r-lite repository, and proves
properties of it.  The embedded functions are translated from

* `source/bundles/recommend/RecommendTaskService.cpp`
  (RecommendTaskService and IndexWorker), and
* `source/core/common/JobScheduler.cpp` (JobScheduler).

Modelling conventions, used throughout:

* C++ strings (`std::string`, `izenelib::util::UString`) are Lean
  `String`s; the per-bundle encoding conversions are identity.
* `docid_t` and `itemid_t` are `Nat`.
* The external 128-bit content hash (`Utilities::md5ToUint128`) is
  injective on the DOCID strings a collection can hold, so it is
  modelled as the identity embedding: id-manager keys are the DOCID
  strings themselves.
* External collaborators (the id manager, the document store, the
  index store, the recommend sub-stores, the directory pair) are
  modelled as explicit state threaded through the functions, following
  the collaborator contracts of the specification; writes to
  collaborators that keep no state we need (the index store, the
  recommend stores) are recorded as events in a trace list.
* Logging, profilers, progress counters and the interruption points
  have no observable effect on the properties below and are dropped.
-/

namespace SF1R

/-- ASCII lower-casing of one character, as a code point. -/
def lowerCode (c : Char) : Nat :=
  if 65 ≤ c.toNat ∧ c.toNat ≤ 90 then c.toNat + 32 else c.toNat

/-- `boost::iequals` on ASCII data: case-insensitive string equality. -/
def iequals (a b : String) : Bool :=
  a.data.map lowerCode == b.data.map lowerCode

/-- `PropertyDataType` of an index-schema property (only the types the
embedded code inspects are distinguished). -/
inductive PropType
  | string
  | int
  | float
  | nominal
  | other
deriving DecidableEq, Repr

/-- One entry of the index bundle schema (`PropertyConfig`): the name,
type and flags that the translated code reads. -/
structure PropertyConfig where
  name : String
  propType : PropType
  isIndex : Bool
  isAnalyzed : Bool
  isFilter : Bool
deriving DecidableEq, Repr

/-- The index bundle schema (`IndexBundleSchema`), a collection of
property configurations searched by property name. -/
abbrev IndexSchema := List PropertyConfig

/-- `indexSchema_.find(temp)` with `temp.propertyName_ = fieldStr`:
look a property up by its name. -/
def findSchema (schema : IndexSchema) (field : String) : Option PropertyConfig :=
  schema.find? (fun cfg => cfg.name == field)

/-- A value held by the document store.  `getPropertyValue_` succeeds
exactly on string-typed values (`boost::get<UString>` throws
`bad_get` on anything else), so the model only distinguishes string
values from non-string ones. -/
inductive StoredValue
  | str (s : String)
  | nonString
deriving DecidableEq, Repr

/-- A stored document: a property-name / value map (association list). -/
abbrev StoredDoc := List (String × StoredValue)

/-- Look a key up in an association list. -/
def assocFind {κ α : Type} [BEq κ] (l : List (κ × α)) (k : κ) : Option α :=
  match l.find? (fun p => p.1 == k) with
  | some p => some p.2
  | none => none

/-- Replace the value at a key, or append the binding if absent
(`document.property(name).swap(..)`, `std::map::operator[]`). -/
def assocSet {κ α : Type} [BEq κ] (l : List (κ × α)) (k : κ) (v : α) :
    List (κ × α) :=
  match l with
  | [] => [(k, v)]
  | (k', v') :: rest =>
    if k' == k then (k', v) :: rest else (k', v') :: assocSet rest k v

/-- The document store (`DocumentManager`): live documents by docid,
the docids marked deleted, and the largest docid ever inserted. -/
structure DocStore where
  docs : List (Nat × StoredDoc)
  deleted : List Nat
  maxDocId : Nat
deriving DecidableEq, Repr

namespace DocStore

/-- `DocumentManager::getDocument`: the live document at a docid. -/
def getDocument (dm : DocStore) (d : Nat) : Option StoredDoc :=
  match dm.docs.find? (fun p => p.1 == d) with
  | some p => some p.2
  | none => none

/-- `DocumentManager::getPropertyValue`. -/
def getPropertyValue (dm : DocStore) (d : Nat) (prop : String) :
    Option StoredValue :=
  match dm.getDocument d with
  | some doc => assocFind doc prop
  | none => none

/-- `DocumentManager::isDeleted`. -/
def isDeleted (dm : DocStore) (d : Nat) : Bool :=
  dm.deleted.contains d

/-- `DocumentManager::removeDocument`: mark the docid deleted; fails
when no live document holds the docid. -/
def removeDocument (dm : DocStore) (d : Nat) : Bool × DocStore :=
  match dm.getDocument d with
  | some _ =>
    (true, { dm with
              docs := dm.docs.filter (fun p => !(p.1 == d))
              deleted := dm.deleted ++ [d] })
  | none => (false, dm)

/-- `DocumentManager::insertDocument`: insert at a fresh docid; the
underlying store rejects a docid that is already live. -/
def insertDocument (dm : DocStore) (d : Nat) (doc : StoredDoc) :
    Option DocStore :=
  match dm.getDocument d with
  | some _ => none
  | none =>
    some { docs := dm.docs ++ [(d, doc)]
           deleted := dm.deleted.filter (fun x => !(x == d))
           maxDocId := max dm.maxDocId d }

/-- `DocumentManager::updatePartialDocument`: overwrite the given
properties of an existing live document, keeping its docid. -/
def updatePartialDocument (dm : DocStore) (d : Nat) (props : StoredDoc) :
    Option DocStore :=
  match dm.getDocument d with
  | some old =>
    some { dm with
            docs := dm.docs.map
              (fun p => if p.1 == d then (d, props.foldl (fun acc kv => assocSet acc kv.1 kv.2) old) else p) }
  | none => none

end DocStore

/-- The id manager (external `IDManager` collaborator, modelled from
the contracts in §3/§6 of the spec): a map from DOCID content hash
(modelled as the DOCID string) to docid, and the next fresh docid. -/
structure IdManager where
  mapping : List (String × Nat)
  nextId : Nat
deriving DecidableEq, Repr

namespace IdManager

/-- `IDManager::getDocIdByDocName(key, docid, false)`: pure lookup. -/
def getDocIdByDocName (idm : IdManager) (h : String) : Option Nat :=
  assocFind idm.mapping h

/-- `IDManager::getDocIdByDocName(key, docid)` with the insert flag
set (the two-argument form used by `createInsertDocId_`): returns
`true` and the mapped docid when the key is known; otherwise assigns a
fresh docid to the key and returns `false` together with it. -/
def getOrCreateDocId (idm : IdManager) (h : String) :
    Bool × Nat × IdManager :=
  match assocFind idm.mapping h with
  | some d => (true, d, idm)
  | none =>
    (false, idm.nextId,
      { mapping := idm.mapping ++ [(h, idm.nextId)], nextId := idm.nextId + 1 })

/-- `IDManager::updateDocIdByDocName`: for a known key, remap it to a
fresh docid and report the previous docid; fails on an unknown key
(the caller then falls back to the insert path, §4.5.1). -/
def updateDocIdByDocName (idm : IdManager) (h : String) :
    Option (IdManager × Nat × Nat) :=
  match assocFind idm.mapping h with
  | some old =>
    some ({ mapping := assocSet idm.mapping h idm.nextId, nextId := idm.nextId + 1 },
          old, idm.nextId)
  | none => none

/-- Well-formedness of the id manager: every docid it has issued is
below the next fresh one. -/
def WF (idm : IdManager) : Prop :=
  ∀ p ∈ idm.mapping, p.2 < idm.nextId

instance (idm : IdManager) : Decidable idm.WF := by
  unfold WF; infer_instance

end IdManager

/-- The static configuration and external pure helpers the IndexWorker
reads: the index schema, the product-source property name, the name of
the date property found in the schema at construction, and the
date-handling helpers of the external `Utilities` class
(`createTimeStampInSeconds`, both the canonical date string it emits
and the numeric timestamp, and the `to_iso_string` rendering used when
a document carries no DATE). -/
structure IndexEnv where
  schema : IndexSchema
  productSourceField : String
  datePropertyName : String
  canonDate : String → String
  canonDateTs : String → Int
  tsToDateString : Int → String

/-- An SCD document: the parsed (property-name, raw-value) pairs of
one record, in file order. -/
abbrev SCDDoc := List (String × String)

/-- Exit status of the `checkRtype_` property loop: the iterator
reached `doc.end()`, the loop executed `break`, or the function
executed `return false` (a stored value was not string-typed). -/
inductive RtypeExit
  | reachedEnd
  | broke
  | badGet
deriving DecidableEq, Repr

/-- The accumulated `rTypeFieldValue` out-parameter: property name,
property type and new value of each changed filterable column. -/
abbrev RtypeFieldValues := List (String × PropType × String)

/-- The property loop of `IndexWorker::checkRtype_` (source lines
2570–2628).  `docId` is the docid resolved so far (`0` before a DOCID
property has been seen), `acc` the `rTypeFieldValue` map written so
far and `isUpdate` the flag accumulated so far. -/
def checkRtypeLoop (env : IndexEnv) (idm : IdManager) (dm : DocStore)
    (docId : Nat) (fields : SCDDoc) (acc : RtypeFieldValues)
    (isUpdate : Bool) : RtypeExit × RtypeFieldValues × Bool :=
  match fields with
  | [] => (.reachedEnd, acc, isUpdate)
  | (fieldName, v) :: rest =>
    match findSchema env.schema fieldName with
    | none => (.broke, acc, isUpdate)
    | some cfg =>
      if iequals fieldName "DOCID" then
        match idm.getDocIdByDocName v with
        | none => (.broke, acc, isUpdate)
        | some d => checkRtypeLoop env idm dm d rest acc isUpdate
      else
        let newValueStr := if iequals fieldName "DATE" then env.canonDate v else v
        match dm.getPropertyValue docId cfg.name with
        | none => (.broke, acc, isUpdate)
        | some .nonString => (.badGet, acc, isUpdate)
        | some (.str oldValueStr) =>
          if newValueStr == oldValueStr then
            checkRtypeLoop env idm dm docId rest acc isUpdate
          else if cfg.isIndex && cfg.isFilter && !cfg.isAnalyzed then
            checkRtypeLoop env idm dm docId rest
              (assocSet acc cfg.name (cfg.propType, newValueStr)) true
          else if !cfg.isIndex then
            checkRtypeLoop env idm dm docId rest acc true
          else
            (.broke, acc, isUpdate)

/-- `IndexWorker::checkRtype_` (source lines 2560–2641): classify an
update document.  Returns the R-type flag, the `rTypeFieldValue` map
as left by the loop (cleared on `break`, kept on `return false`), and
the `isUpdate` flag. -/
def checkRtype_ (env : IndexEnv) (idm : IdManager) (dm : DocStore)
    (doc : SCDDoc) : Bool × RtypeFieldValues × Bool :=
  match checkRtypeLoop env idm dm 0 doc [] false with
  | (.reachedEnd, acc, isU) => (true, acc, isU)
  | (.broke, _, isU) => (false, [], isU)
  | (.badGet, acc, isU) => (false, acc, isU)

/-- `IndexWorker::createUpdateDocId_` (source lines 1728–1749): for an
R-type update, look the existing docid up (the new docid IS the old
one); otherwise ask the id manager to retire the old docid and issue a
fresh one.  Returns `(id manager after, oldId, newId)` on success. -/
def createUpdateDocId_ (idm : IdManager) (scdDocId : String) (rType : Bool) :
    Option (IdManager × Nat × Nat) :=
  if rType then
    match idm.getDocIdByDocName scdDocId with
    | some oldId => some (idm, oldId, oldId)
    | none => none
  else
    idm.updateDocIdByDocName scdDocId

/-- `IndexWorker::createInsertDocId_` (source lines 1751–1785): obtain
a docid for an insert; a docid already live, or one not above the
document store's max docid, is rejected. -/
def createInsertDocId_ (idm : IdManager) (dm : DocStore) (scdDocId : String) :
    Option (Nat × IdManager) :=
  let (existed, docId0, idm1) := idm.getOrCreateDocId scdDocId
  let reassigned : Option (Nat × IdManager) :=
    if existed then
      if dm.isDeleted docId0 then
        match idm1.updateDocIdByDocName scdDocId with
        | some (idm2, _, newId) => some (newId, idm2)
        | none => none
      else
        none
    else
      some (docId0, idm1)
  match reassigned with
  | none => none
  | some (docId, idm2) =>
    if docId ≤ dm.maxDocId then none else some (docId, idm2)

/-- The running state of `IndexWorker::prepareDocument_` while it
scans the raw document: the id manager (which `createUpdateDocId_` /
`createInsertDocId_` may advance), the in-memory document being
assembled, the docids, the classification results, and the `insert`
flag, which the DOCID branch may flip from update to insert. -/
structure PrepState where
  idm : IdManager
  document : StoredDoc
  docId : Nat
  oldId : Nat
  rType : Bool
  rTypeFieldValue : RtypeFieldValues
  source : String
  timestamp : Int
  insert : Bool
  dateExistInSCD : Bool
deriving DecidableEq, Repr

/-- The per-property loop of `IndexWorker::prepareDocument_` (source
lines 2017–2116).  `fullDoc` is the whole record (`checkRtype_` is
always called on the whole record), `fields` the suffix still to
process.  `none` models `return false`.

The sentence-block (`.blocks`) summary side products and the numeric
multi-value splitting only shape display metadata inside the assembled
document; they are not modelled since no verified property reads
them — the assembled document keeps each property's raw value. -/
def prepareLoop (env : IndexEnv) (dm : DocStore) (fullDoc : SCDDoc)
    (fields : SCDDoc) (st : PrepState) : Option PrepState :=
  match fields with
  | [] => some st
  | (fieldStr, v) :: rest =>
    let isIndexSchema := (findSchema env.schema fieldStr).isSome
    let st := if env.productSourceField ≠ "" ∧
                 iequals fieldStr env.productSourceField then
                { st with source := v }
              else st
    if iequals fieldStr "DOCID" ∧ isIndexSchema then
      let afterUpdateCheck : Option PrepState :=
        if !st.insert then
          let (rType, rTypeFieldValue, isUpdate) :=
            checkRtype_ env st.idm dm fullDoc
          if rType ∧ !isUpdate then
            none
          else
            let st := { st with rType := rType, rTypeFieldValue := rTypeFieldValue }
            match createUpdateDocId_ st.idm v rType with
            | some (idm', oldId, newId) =>
              some { st with idm := idm', oldId := oldId, docId := newId }
            | none => some { st with insert := true }
        else
          some st
      match afterUpdateCheck with
      | none => none
      | some st =>
        let afterInsert : Option PrepState :=
          if st.insert then
            match createInsertDocId_ st.idm dm v with
            | some (docId, idm') => some { st with idm := idm', docId := docId }
            | none => none
          else
            some st
        match afterInsert with
        | none => none
        | some st =>
          prepareLoop env dm fullDoc rest
            { st with document := assocSet st.document fieldStr (.str v) }
    else if iequals fieldStr "DATE" then
      prepareLoop env dm fullDoc rest
        { st with
            dateExistInSCD := true
            timestamp := env.canonDateTs v
            document := assocSet st.document env.datePropertyName (.str v) }
    else if isIndexSchema then
      match findSchema env.schema fieldStr with
      | some cfg =>
        match cfg.propType with
        | .string | .int | .float | .nominal =>
          prepareLoop env dm fullDoc rest
            { st with document := assocSet st.document fieldStr (.str v) }
        | .other => prepareLoop env dm fullDoc rest st
      | none => prepareLoop env dm fullDoc rest st
    else
      prepareLoop env dm fullDoc rest st

/-- `IndexWorker::completePartialDocument_` (source lines 1559–1573):
for a non-R-type update, load the old document and overlay the new
properties on it; fails when the old document is gone. -/
def completePartialDocument_ (dm : DocStore) (oldId : Nat) (doc : StoredDoc) :
    Option StoredDoc :=
  match dm.getDocument oldId with
  | none => none
  | some oldDoc =>
    some (doc.foldl (fun acc kv => assocSet acc kv.1 kv.2) oldDoc)

/-- `IndexWorker::prepareDocument_` (source lines 1994–2132): scan the
raw document, classify it, obtain its docids and assemble the
in-memory document.  `none` models `return false` (the caller skips
the record). -/
def prepareDocument_ (env : IndexEnv) (idm : IdManager) (dm : DocStore)
    (doc : SCDDoc) (timestamp : Int) (insert : Bool) : Option PrepState :=
  if doc.isEmpty then none
  else
    let st0 : PrepState :=
      { idm := idm, document := [], docId := 0, oldId := 0, rType := false
        rTypeFieldValue := [], source := "", timestamp := timestamp
        insert := insert, dateExistInSCD := false }
    match prepareLoop env dm doc doc st0 with
    | none => none
    | some st =>
      let st :=
        if st.dateExistInSCD then { st with timestamp := -1 }
        else { st with
                document := assocSet st.document env.datePropertyName
                  (.str (env.tsToDateString st.timestamp)) }
      if !st.insert ∧ !st.rType then
        match completePartialDocument_ dm st.oldId st.document with
        | none => none
        | some merged => some { st with document := merged }
      else
        some st

/-- One write against the index store (`IndexManager`), recorded as an
event; the store itself lives outside the repository. -/
inductive IndexOp
  | insertIndex (docId : Nat)
  | updateIndex (oldId newId : Nat)
  | updateRtypeIndex (docId : Nat)
  | removeIndex (docId : Nat)
deriving DecidableEq, Repr

/-- The mutable state an IndexWorker build pass threads through the
per-document operations: id manager, document store, the trace of
index-store writes, and the per-source counters
(`productSourceCount_`). -/
structure IndexState where
  idm : IdManager
  dm : DocStore
  indexOps : List IndexOp
  srcCount : List (String × Nat)
deriving DecidableEq, Repr

/-- `IndexWorker::insertDoc_` (source lines 1869–1893), with no hooker
configured: document-store insert, then index-store insert. -/
def insertDoc_ (st : IndexState) (docId : Nat) (doc : StoredDoc) :
    IndexState × Bool :=
  match st.dm.insertDocument docId doc with
  | some dm' =>
    ({ st with dm := dm', indexOps := st.indexOps ++ [.insertIndex docId] }, true)
  | none => (st, false)

/-- `IndexWorker::updateDoc_` (source lines 1895–1940), with no hooker
configured.  R-type: rebuild the old filter columns
(`preparePartialDocument_`, which fails when the old document is
gone), patch the stored document in place, rewrite the filter columns
in the index.  Non-R-type: retire the old docid from the document
store (failure tolerated: it may already be deleted), insert the
replacement under the new docid, and update the index. -/
def updateDoc_ (st : IndexState) (docId oldId : Nat) (doc : StoredDoc)
    (rType : Bool) : IndexState × Bool :=
  if rType then
    match st.dm.getDocument docId with
    | none => (st, false)
    | some _ =>
      match st.dm.updatePartialDocument docId doc with
      | some dm' =>
        ({ st with dm := dm'
                   indexOps := st.indexOps ++ [.updateRtypeIndex docId] }, true)
      | none => (st, false)
  else
    let dm1 := (st.dm.removeDocument oldId).2
    match dm1.insertDocument docId doc with
    | some dm2 =>
      ({ st with dm := dm2
                 indexOps := st.indexOps ++ [.updateIndex oldId docId] }, true)
    | none => ({ st with dm := dm1 }, false)

/-- `IndexWorker::deleteDoc_` (source lines 1942–1958), with no hooker
configured: mark the docid deleted in the document store and, when
that succeeds, remove it from the index. -/
def deleteDoc_ (st : IndexState) (docId : Nat) : IndexState × Bool :=
  match st.dm.removeDocument docId with
  | (true, dm') =>
    ({ st with dm := dm', indexOps := st.indexOps ++ [.removeIndex docId] }, true)
  | (false, _) => (st, false)

/-- The per-document body of `IndexWorker::insertOrUpdateSCD_` for an
update SCD (`isInsert = false`, source lines 1682–1718): prepare the
document (skipping the record when preparation fails), then dispatch
to the insert path (when preparation fell back to insert, or no old
docid was found) or the update path.  The Bool reports whether any
store was touched for this record. -/
def processUpdateDoc_ (env : IndexEnv) (st : IndexState) (doc : SCDDoc)
    (timestamp : Int) : IndexState × Bool :=
  match prepareDocument_ env st.idm st.dm doc timestamp false with
  | none => (st, false)
  | some ps =>
    let st1 := { st with idm := ps.idm }
    if ps.insert || ps.oldId == 0 then
      ((insertDoc_ st1 ps.docId ps.document).1, true)
    else
      ((updateDoc_ st1 ps.docId ps.oldId ps.document ps.rType).1, true)

/-- Increment a per-source counter (`++productSourceCount_[source]`). -/
def bumpCount (l : List (String × Nat)) (s : String) : List (String × Nat) :=
  match assocFind l s with
  | some n => assocSet l s (n + 1)
  | none => assocSet l s 1

/-- The deletion loop of `IndexWorker::deleteSCD_` (source lines
1821–1858) over the already-sorted docid list.  For each docid: when a
product-source field is configured and the stored value under it is
not string-typed, the pass aborts (`return false`); otherwise the
per-source counter is bumped when a value exists, and `deleteDoc_` is
attempted (its failure is logged and skipped).  The returned list
records every docid handed to `deleteDoc_`, in call order. -/
def deleteLoop (env : IndexEnv) (st : IndexState) (docIds : List Nat)
    (trace : List Nat) : Bool × IndexState × List Nat :=
  match docIds with
  | [] => (true, st, trace)
  | d :: rest =>
    let srcStep : Option IndexState :=
      if env.productSourceField ≠ "" then
        match st.dm.getPropertyValue d env.productSourceField with
        | some (.str s) => some { st with srcCount := bumpCount st.srcCount s }
        | some .nonString => none
        | none => some st
      else some st
    match srcStep with
    | none => (false, st, trace)
    | some st1 =>
      let st2 := (deleteDoc_ st1 d).1
      deleteLoop env st2 rest (trace ++ [d])

/-- `IndexWorker::deleteSCD_` (source lines 1787–1867): materialise
the DOCID list (`none` models `getDocIdList` failing on an invalid
file), resolve each hash to a docid — hashes that do not resolve are
skipped —, sort the docids ascending (`std::sort`; on `Nat` with `≤`
the sorted permutation is unique, so the choice of algorithm is
irrelevant) and run the deletion loop. -/
def deleteSCD_ (env : IndexEnv) (st : IndexState)
    (rawDocIDList : Option (List String)) : Bool × IndexState × List Nat :=
  match rawDocIDList with
  | none => (false, st, [])
  | some l =>
    let docIdList := l.filterMap st.idm.getDocIdByDocName
    deleteLoop env st (List.insertionSort (· ≤ ·) docIdList) []

/-! ## The directory pair and the backup copies -/

/-- One data directory of the rotating pair: its name, the name of the
sibling it was copied from, and its validity mark. -/
structure Dir where
  name : String
  parentName : String
  valid : Bool
deriving DecidableEq, Repr

/-- The directory rotator: the current (live) directory and the
prepared next one, when it exists. -/
structure DirectoryRotator where
  current : Dir
  next : Option Dir
deriving DecidableEq, Repr

/-- Modelled from the spec: `Directory::copyFrom` (external
directory-manager collaborator) copies the sibling's payload and
leaves the destination a valid copy of it — `valid` set and
`parentName` recording which sibling it was copied from (§3). -/
def copyFrom (cur nxt : Dir) : Dir :=
  { nxt with parentName := cur.name, valid := true }

/-- `backupDataFiles` (RecommendTaskService.cpp lines 123–152): copy
current → next unless next is missing, is the same directory, or is
already a valid copy of current; a filesystem error during the copy
(`copyFails`) returns failure without mutating state.  The `Nat`
counts the `copyFrom` calls performed. -/
def backupDataFiles (copyFails : Bool) (r : DirectoryRotator) :
    Bool × DirectoryRotator × Nat :=
  match r.next with
  | some next =>
    if r.current.name ≠ next.name ∧
       ¬(next.valid ∧ next.parentName = r.current.name) then
      if copyFails then (false, r, 1)
      else (true, { r with next := some (copyFrom r.current next) }, 1)
    else (true, r, 0)
  | none => (true, r, 0)

/-- `IndexWorker::backup_` (source lines 2734–2766).  Unlike
`backupDataFiles`, the source has the third conjunct of its own
comment — "have not copied successfully yet", i.e.
`!(next->valid() && next->parentName() == current->name())` — present
only as commented-out code (line 2746), so the copy happens whenever
`next` exists and the names differ. -/
def IndexWorker.backup_ (copyFails : Bool) (r : DirectoryRotator) :
    Bool × DirectoryRotator × Nat :=
  match r.next with
  | some next =>
    if r.current.name ≠ next.name then
      if copyFails then (false, r, 1)
      else (true, { r with next := some (copyFrom r.current next) }, 1)
    else (true, r, 0)
  | none => (true, r, 0)

/-! ## The Job Scheduler -/

/-- What running one queued task does: return normally, throw an
ordinary exception, or throw `boost::thread_interrupted` (the
cancellation used for shutdown). -/
inductive TaskOutcome
  | normal
  | throwsExc
  | interrupted
deriving DecidableEq, Repr

/-- A queued task, tagged with an id so the execution order can be
observed. -/
structure Task where
  id : Nat
  outcome : TaskOutcome
deriving DecidableEq, Repr

/-- How the worker thread of `JobScheduler::runAsynchronousTasks_`
ends: still draining (queue exhausted in the model), returned cleanly
through the `boost::thread_interrupted` handler, or terminated by an
exception that escaped the try block. -/
inductive WorkerExit
  | draining
  | interruptedExit
  | escapedException
deriving DecidableEq, Repr

/-- `JobScheduler::runAsynchronousTasks_` (JobScheduler.cpp lines
29–47) run against the FIFO sequence of tasks enqueued before
shutdown: pop a task, run it, check for interruption, repeat.  The
`try` block catches only `boost::thread_interrupted`; any other
exception a task throws escapes the loop and terminates the worker.
Returns the ids of the tasks the worker ran, in order, and how the
worker ended. -/
def runAsynchronousTasks_ : List Task → List Nat × WorkerExit
  | [] => ([], .draining)
  | t :: rest =>
    match t.outcome with
    | .normal =>
      let (ids, ex) := runAsynchronousTasks_ rest
      (t.id :: ids, ex)
    | .throwsExc => ([t.id], .escapedException)
    | .interrupted => ([t.id], .interruptedExit)

/-! ## The Recommend Task Service -/

/-- The max number of orders to collect before flushing them
(`MAX_ORDER_NUM`, RecommendTaskService.cpp line 54). -/
def MAX_ORDER_NUM : Nat := 1000

/-- One order item (`RecommendTaskService::OrderItem`): the item-id
string and the originating query.  The date, quantity and price
fields are carried along unread by every verified property and are
omitted. -/
structure OrderItem where
  itemIdStr : String
  query : String
deriving DecidableEq, Repr

/-- The external stores `saveOrder_` writes to, as pure outcome
functions: item-id resolution (`ItemIdGenerator::strIdToItemId`), the
purchase-store write outcome, and the query-purchase counter get /
update outcomes per query key. -/
structure RecEnv where
  strIdToItemId : String → Option Nat
  addPurchaseOk : String → List Nat → Bool
  counterGetOk : String → Bool
  counterUpdateOk : String → Bool

/-- One operation against the recommend sub-stores, recorded as an
event. -/
inductive StoreEvent
  | addOrder (itemIds : List Nat)
  | addPurchase (user : String) (itemIds : List Nat)
  | counterGet (query : String)
  | counterUpdate (query : String) (itemId : Nat)
deriving DecidableEq, Repr

/-- `RecommendTaskService::convertOrderItemVec_` (source lines
722–740): resolve every item string; any failure aborts the order. -/
def convertOrderItemVec_ (env : RecEnv) : List OrderItem → Option (List Nat)
  | [] => some []
  | it :: rest =>
    match env.strIdToItemId it.itemIdStr with
    | none => none
    | some i =>
      match convertOrderItemVec_ env rest with
      | none => none
      | some is => some (i :: is)

/-- `RecommendTaskService::insertPurchaseCounter_` (source lines
689–720): for every order item with a non-empty query, read the
counter under that query (a failed read marks the result false and
skips that item), record a click of the item-id, and write the counter
back (a failed write marks the result false); remaining items are
always still processed. -/
def insertPurchaseCounter_ (env : RecEnv) :
    List OrderItem → List Nat → Bool × List StoreEvent
  | it :: its, i :: is =>
    let tail := insertPurchaseCounter_ env its is
    if it.query = "" then tail
    else if env.counterGetOk it.query then
      if env.counterUpdateOk it.query then
        (tail.1, .counterGet it.query :: .counterUpdate it.query i :: tail.2)
      else
        (false, .counterGet it.query :: .counterUpdate it.query i :: tail.2)
    else
      (false, .counterGet it.query :: tail.2)
  | _, _ => (true, [])

/-- `RecommendTaskService::saveOrder_` (source lines 658–687): an
empty order is rejected; an item that does not resolve aborts the
order before any write; then the order store is written
unconditionally (`OrderManager::addOrder` returns no outcome), and
`addPurchaseItem && insertPurchaseCounter_` is evaluated — with C++
short-circuit: when the purchase-store write fails, the counter is
not attempted.  Returns the saved flag and the trace of store
writes. -/
def saveOrder_ (env : RecEnv) (userIdStr _orderIdStr : String)
    (orderItemVec : List OrderItem) : Bool × List StoreEvent :=
  if orderItemVec.isEmpty then (false, [])
  else
    match convertOrderItemVec_ env orderItemVec with
    | none => (false, [])
    | some itemIdVec =>
      if env.addPurchaseOk userIdStr itemIdVec then
        let counter := insertPurchaseCounter_ env orderItemVec itemIdVec
        (counter.1,
          .addOrder itemIdVec :: .addPurchase userIdStr itemIdVec :: counter.2)
      else
        (false, [.addOrder itemIdVec, .addPurchase userIdStr itemIdVec])

/-- A call to `saveOrder_` as the order-ingestion code issues it:
user, order id and the accumulated items (all such calls during order
ingestion go to the `purchaseCoVisitMatrix_` channel). -/
abbrev SaveCall := String × String × List OrderItem

/-- The staging `OrderMap`: (user, order-id) keys to accumulated
items.  `std::map` holds its entries in key order; the model keeps
insertion order, which affects none of the verified properties. -/
abbrev OrderMap := List ((String × String) × List OrderItem)

/-- `RecommendTaskService::saveOrderMap_` (source lines 650–656): one
`saveOrder_` call per accumulated order. -/
def saveOrderMap_ (m : OrderMap) : List SaveCall :=
  m.map (fun e => (e.1.1, e.1.2, e.2))

/-- `RecommendTaskService::loadOrderItem_` (source lines 614–648): an
order without an order id is written through immediately as a
singleton; otherwise the item is appended to its (user, order-id)
entry, and when a new key would grow a map holding `MAX_ORDER_NUM`
entries, the whole map is flushed and cleared first.  Returns the new
map and the `saveOrder_` calls issued. -/
def loadOrderItem_ (userIdStr orderIdStr : String) (orderItem : OrderItem)
    (orderMap : OrderMap) : OrderMap × List SaveCall :=
  if orderIdStr = "" then
    (orderMap, [(userIdStr, orderIdStr, [orderItem])])
  else
    match assocFind orderMap (userIdStr, orderIdStr) with
    | some items =>
      (assocSet orderMap (userIdStr, orderIdStr) (items ++ [orderItem]), [])
    | none =>
      if MAX_ORDER_NUM ≤ orderMap.length then
        ([((userIdStr, orderIdStr), [orderItem])], saveOrderMap_ orderMap)
      else
        (orderMap ++ [((userIdStr, orderIdStr), [orderItem])], [])

/-- One record of an order SCD file after `doc2Order`: `none` when
parsing failed (the record is skipped), otherwise user, order id and
item. -/
abbrev OrderRecord := Option (String × String × OrderItem)

/-- One iteration of the record loop of `parseOrderSCD_`: a record
that failed `doc2Order` is skipped, the rest go through
`loadOrderItem_`. -/
def ingestStep (st : OrderMap × List SaveCall) (r : OrderRecord) :
    OrderMap × List SaveCall :=
  match r with
  | none => st
  | some (u, oid, it) =>
    ((loadOrderItem_ u oid it st.1).1, st.2 ++ (loadOrderItem_ u oid it st.1).2)

/-- The record loop of `RecommendTaskService::parseOrderSCD_` (source
lines 575–601): fold `loadOrderItem_` over the parsed records,
accumulating the `saveOrder_` calls issued along the way. -/
def ingestOrders (records : List OrderRecord) : OrderMap × List SaveCall :=
  records.foldl ingestStep ([], [])

/-- `RecommendTaskService::parseOrderSCD_` (source lines 555–612),
record phase: ingest every record, then flush whatever is still
accumulated in the map (`saveOrderMap_(orderMap)` after the loop).
Returns all `saveOrder_` calls of the file, in call order. -/
def parseOrderCalls (records : List OrderRecord) : List SaveCall :=
  (ingestOrders records).2 ++ saveOrderMap_ (ingestOrders records).1

/-- What loading one order SCD file does, as `parseOrderSCD_` (source
lines 555–572) observes it: the `ScdParser::load` call fails, the file
type is not insert (rejected), or the records parse out. -/
inductive FileOutcome
  | loadFail
  | notInsertType
  | parsed (records : List OrderRecord)

/-- The environment of `loadOrderSCD_`: the directory scan result
(`none` when `scanSCDFiles` fails), the per-file outcome, and whether
the per-file `bfs::rename` into `backup/` succeeds. -/
structure OrderLoadEnv where
  scanResult : Option (List String)
  fileOutcome : String → FileOutcome
  renameOk : String → Bool

/-- `RecommendTaskService::parseOrderSCD_` for one file: rejected
files (load failure, or a type other than insert) produce no calls
and report failure. -/
def parseOrderSCD_ (env : OrderLoadEnv) (scdPath : String) :
    Bool × List SaveCall :=
  match env.fileOutcome scdPath with
  | .loadFail => (false, [])
  | .notInsertType => (false, [])
  | .parsed records => (true, parseOrderCalls records)

/-- `backupSCDFiles` (RecommendTaskService.cpp lines 103–121): rename
every listed file into `backup/`; a rename failure is logged per file
and skipped.  Returns the files actually moved. -/
def backupSCDFiles (env : OrderLoadEnv) (scdList : List String) :
    List String :=
  scdList.filter (fun f => env.renameOk f)

/-- `RecommendTaskService::loadOrderSCD_` (source lines 524–553): scan
the order SCD directory (scan failure fails the build), parse every
file ignoring the per-file result, flush the stores, and move every
scanned file — rejected ones included — into `backup/`.  Returns the
pass result, the files moved to backup, and all `saveOrder_` calls. -/
def loadOrderSCD_ (env : OrderLoadEnv) : Bool × List String × List SaveCall :=
  match env.scanResult with
  | none => (false, [], [])
  | some scdList =>
    if scdList.isEmpty then (true, [], [])
    else
      let calls := scdList.flatMap (fun f => (parseOrderSCD_ env f).2)
      (true, backupSCDFiles env scdList, calls)

/-! ## The Recommend cron job -/

/-- What one cron tick of `RecommendTaskService::cronJob_` observes:
whether the cron expression matches now, whether
`buildCollectionMutex_` is currently held (by `buildCollection`), and
the collaborator answers read during a flush. -/
structure CronEnv where
  matchesNow : Bool
  mutexBusy : Bool
  needRebuildPurchaseSimMatrix : Bool
  freqItemSetEnable : Bool

/-- One store mutation a cron tick can perform. -/
inductive CronEvent
  | flushStore (store : String)
  | buildPurchaseSimMatrix
  | flushRecommendMatrix
  | buildFreqItemSets
deriving DecidableEq, Repr

/-- `RecommendTaskService::flush_` (source lines 772–794): flush every
sub-store, rebuild the purchase similarity matrix when the
collaborator reports it stale, and flush the recommend matrix. -/
def flushAll (env : CronEnv) : List CronEvent :=
  [.flushStore "user", .flushStore "visit", .flushStore "purchase",
   .flushStore "cart", .flushStore "order", .flushStore "event",
   .flushStore "rate", .flushStore "queryPurchaseCounter"] ++
  (if env.needRebuildPurchaseSimMatrix then [.buildPurchaseSimMatrix] else []) ++
  [.flushRecommendMatrix]

/-- `RecommendTaskService::buildFreqItemSet_` (source lines 742–752). -/
def buildFreqItemSet_ (env : CronEnv) : List CronEvent :=
  if env.freqItemSetEnable then [.buildFreqItemSets] else []

/-- `RecommendTaskService::cronJob_` (source lines 754–770): on a cron
match, try-acquire `buildCollectionMutex_` without blocking; when the
acquisition fails the tick exits at once, otherwise it flushes all
stores and rebuilds the frequent item sets.  Returns the store
mutations performed by the tick. -/
def cronJob_ (env : CronEnv) : List CronEvent :=
  if env.matchesNow then
    if env.mutexBusy then []
    else flushAll env ++ buildFreqItemSet_ env
  else []

/-! ## Verified properties

Concrete fixtures used by the witnesses. -/

/-- A small index schema: DOCID; a filterable DATE; an analyzed title;
a filterable, non-analyzed price; an unindexed note. -/
def testSchema : IndexSchema :=
  [ { name := "DOCID", propType := .string, isIndex := true, isAnalyzed := false, isFilter := false },
    { name := "DATE", propType := .string, isIndex := true, isAnalyzed := false, isFilter := true },
    { name := "title", propType := .string, isIndex := true, isAnalyzed := true, isFilter := false },
    { name := "price", propType := .int, isIndex := true, isAnalyzed := false, isFilter := true },
    { name := "note", propType := .string, isIndex := false, isAnalyzed := false, isFilter := false } ]

/-- A fixture configuration over `testSchema` with no product-source
field and trivial date helpers. -/
def testEnv : IndexEnv :=
  { schema := testSchema, productSourceField := "", datePropertyName := "DATE"
    canonDate := fun s => s, canonDateTs := fun _ => 7
    tsToDateString := fun _ => "20091009" }

/-- A fixture id manager holding the single DOCID "A" at docid 3. -/
def testIdm : IdManager := { mapping := [("A", 3)], nextId := 7 }

/-- A fixture document store holding docid 3. -/
def testDm : DocStore :=
  { docs := [(3, [("DOCID", .str "A"), ("title", .str "x"), ("price", .str "10")])]
    deleted := [], maxDocId := 6 }

/-- A fixture worker state over `testIdm` / `testDm`. -/
def testSt : IndexState :=
  { idm := testIdm, dm := testDm, indexOps := [], srcCount := [] }

/-- C8.  Whenever `buildCollection` holds `buildCollectionMutex_`, the
cron callback's non-blocking try-acquire fails and the tick performs
no store mutation at all: it flushes no sub-store and rebuilds no
matrix. -/
theorem cron_skip_when_mutex_busy (env : CronEnv)
    (hbusy : env.mutexBusy = true) : cronJob_ env = [] := by
  unfold cronJob_
  rw [hbusy]
  simp

/-- A matching cron tick arriving while the build mutex is held. -/
def cronBusyEnv : CronEnv where
  matchesNow := true
  mutexBusy := true
  needRebuildPurchaseSimMatrix := true
  freqItemSetEnable := true

/-- Witness for `cron_skip_when_mutex_busy` at a matching tick during
a build. -/
theorem cron_skip_when_mutex_busy_witness :
    cronBusyEnv.mutexBusy = true ∧ cronJob_ cronBusyEnv = [] :=
  ⟨rfl, cron_skip_when_mutex_busy cronBusyEnv rfl⟩

/-- A directory pair whose next directory is already a valid copy of
the current one (`valid` set, `parentName` = current's name, names
distinct). -/
def rotValidCopy : DirectoryRotator :=
  { current := { name := "data.01", parentName := "data.02", valid := true }
    next := some { name := "data.02", parentName := "data.01", valid := true } }

/-- C4.  On a pair whose next directory is already a valid copy of
current, `IndexWorker::backup_` still performs a `copyFrom` call — the
"have not copied successfully yet" conjunct announced by its own
comment is commented out in the source — and a second invocation
copies yet again, so two successive backups with no intervening writes
copy twice, not at most once.  The recommend-side `backupDataFiles`,
which implements the full condition, performs no copy and returns
success on the same input. -/
theorem backup_recopies_valid_next :
    (IndexWorker.backup_ false rotValidCopy).2.2 = 1 ∧
    (IndexWorker.backup_ false rotValidCopy).1 = true ∧
    (IndexWorker.backup_ false (IndexWorker.backup_ false rotValidCopy).2.1).2.2 = 1 ∧
    backupDataFiles false rotValidCopy = (true, rotValidCopy, 0) := by
  decide

/-- C6 counterexample.  A queue holding a throwing task followed by a
normal task: the exception escapes the `try` block (which catches only
`boost::thread_interrupted`), the worker terminates, and the second
task is never executed. -/
theorem jobScheduler_throw_kills_worker_cex :
    runAsynchronousTasks_ [⟨1, .throwsExc⟩, ⟨2, .normal⟩] = ([1], .escapedException) ∧
    2 ∉ (runAsynchronousTasks_ [⟨1, .throwsExc⟩, ⟨2, .normal⟩]).1 := by
  decide

/-- The worker executes an in-order prefix of the queue. -/
lemma runTasks_inOrder (q : List Task) :
    ∃ n, (runAsynchronousTasks_ q).1 = (q.map Task.id).take n := by
  induction q with
  | nil => exact ⟨0, rfl⟩
  | cons t rest ih =>
    cases h : t.outcome with
    | normal =>
      obtain ⟨n, hn⟩ := ih
      exact ⟨n + 1, by simp [runAsynchronousTasks_, h, hn]⟩
    | throwsExc => exact ⟨1, by simp [runAsynchronousTasks_, h]⟩
    | interrupted => exact ⟨1, by simp [runAsynchronousTasks_, h]⟩

/-- C6 amended.  The worker executes tasks sequentially in enqueue
order — what it executes is always an in-order prefix of the queue —
but a task that throws an ordinary exception terminates the worker:
when the queue is `pre ++ t :: post` with `pre` all normal and `t`
throwing, exactly `pre` and then `t` run, the worker exits by the
escaped exception, and the tasks of `post` are never executed. -/
theorem jobScheduler_inorder_until_throw (q pre post : List Task) (t : Task)
    (hq : q = pre ++ t :: post) (hpre : ∀ x ∈ pre, x.outcome = .normal)
    (ht : t.outcome = .throwsExc) :
    (∃ n, (runAsynchronousTasks_ q).1 = (q.map Task.id).take n) ∧
    runAsynchronousTasks_ q = (pre.map Task.id ++ [t.id], .escapedException) := by
  refine ⟨runTasks_inOrder q, ?_⟩
  subst hq
  induction pre with
  | nil => simp [runAsynchronousTasks_, ht]
  | cons x rest ih =>
    have hx : x.outcome = .normal := hpre x (by simp)
    have := ih (fun y hy => hpre y (by simp [hy]))
    simp [runAsynchronousTasks_, hx, this]

/-- Witness for `jobScheduler_inorder_until_throw`. -/
theorem jobScheduler_inorder_until_throw_witness :
    ([⟨5, .normal⟩, ⟨6, .throwsExc⟩, ⟨7, .normal⟩] : List Task) =
      [⟨5, .normal⟩] ++ (⟨6, .throwsExc⟩ : Task) :: [⟨7, .normal⟩] ∧
    (∀ x ∈ ([⟨5, .normal⟩] : List Task), x.outcome = .normal) ∧
    (Task.mk 6 .throwsExc).outcome = .throwsExc ∧
    ((∃ n, (runAsynchronousTasks_ [⟨5, .normal⟩, ⟨6, .throwsExc⟩, ⟨7, .normal⟩]).1 =
        (([⟨5, .normal⟩, ⟨6, .throwsExc⟩, ⟨7, .normal⟩] : List Task).map Task.id).take n) ∧
      runAsynchronousTasks_ [⟨5, .normal⟩, ⟨6, .throwsExc⟩, ⟨7, .normal⟩] =
        ([5, 6], .escapedException)) :=
  ⟨rfl, by decide, rfl,
    jobScheduler_inorder_until_throw _ [⟨5, .normal⟩] [⟨7, .normal⟩] ⟨6, .throwsExc⟩
      rfl (by decide) rfl⟩

/-- C10.  When the order SCD directory scan succeeds, the bulk build's
order phase returns success no matter how the individual files fare —
`loadOrderSCD_` ignores every per-file result — and every scanned
file, rejected ones included, is handed to the backup rename (all
files whose rename succeeds are moved; with no filesystem errors, all
of them). -/
theorem loadOrderSCD_tolerates_bad_files (env : OrderLoadEnv)
    (files : List String) (hscan : env.scanResult = some files)
    (hne : files ≠ []) :
    (loadOrderSCD_ env).1 = true ∧
    (loadOrderSCD_ env).2.1 = files.filter (fun f => env.renameOk f) ∧
    ((∀ f ∈ files, env.renameOk f = true) → (loadOrderSCD_ env).2.1 = files) := by
  have hempty : files.isEmpty = false := by
    cases files with
    | nil => exact absurd rfl hne
    | cons a l => rfl
  have hgoal : loadOrderSCD_ env =
      (true, files.filter (fun f => env.renameOk f),
        files.flatMap (fun f => (parseOrderSCD_ env f).2)) := by
    unfold loadOrderSCD_
    rw [hscan]
    simp [hempty, backupSCDFiles]
  rw [hgoal]
  exact ⟨rfl, rfl, fun h => List.filter_eq_self.mpr h⟩

/-- A scan fixture: two order bundle files, one failing to load, one
rejected for not being an insert bundle; renames all succeed. -/
def testOrderLoadEnv : OrderLoadEnv where
  scanResult := some ["B-00-x-I.SCD", "B-01-x-U.SCD"]
  fileOutcome := fun f =>
    if f = "B-00-x-I.SCD" then FileOutcome.loadFail else FileOutcome.notInsertType
  renameOk := fun _ => true

/-- Witness for `loadOrderSCD_tolerates_bad_files`: two scanned files,
one failing to load and one rejected for not being an insert bundle;
the pass succeeds and both files are moved to backup. -/
theorem loadOrderSCD_tolerates_bad_files_witness :
    testOrderLoadEnv.scanResult = some ["B-00-x-I.SCD", "B-01-x-U.SCD"] ∧
    (["B-00-x-I.SCD", "B-01-x-U.SCD"] : List String) ≠ [] ∧
    ((loadOrderSCD_ testOrderLoadEnv).1 = true ∧
     (loadOrderSCD_ testOrderLoadEnv).2.1 =
       (["B-00-x-I.SCD", "B-01-x-U.SCD"] : List String).filter
         (fun f => testOrderLoadEnv.renameOk f) ∧
     ((∀ f ∈ (["B-00-x-I.SCD", "B-01-x-U.SCD"] : List String),
        testOrderLoadEnv.renameOk f = true) →
      (loadOrderSCD_ testOrderLoadEnv).2.1 = ["B-00-x-I.SCD", "B-01-x-U.SCD"])) :=
  ⟨rfl, by decide,
    loadOrderSCD_tolerates_bad_files testOrderLoadEnv
      ["B-00-x-I.SCD", "B-01-x-U.SCD"] rfl (by decide)⟩

/-- Is this event a touch of the query-purchase counter? -/
def isCounterEvent : StoreEvent → Bool
  | .counterGet _ => true
  | .counterUpdate _ _ => true
  | _ => false

/-- Is this event a counter read (`queryPurchaseCounter_.get`)? -/
def isCounterGet : StoreEvent → Bool
  | .counterGet _ => true
  | _ => false

/-- A recommend-store fixture where item "i1" resolves to item-id 1
but the purchase-store write fails. -/
def recEnvPurchaseFails : RecEnv where
  strIdToItemId := fun s => if s = "i1" then some 1 else none
  addPurchaseOk := fun _ _ => false
  counterGetOk := fun _ => true
  counterUpdateOk := fun _ => true

/-- The one-item order used against `recEnvPurchaseFails`: its item
resolves and its query field is non-empty. -/
def orderWithQuery : List OrderItem := [{ itemIdStr := "i1", query := "q" }]

/-- C5 counterexample.  A non-empty order whose single item resolves
and carries a non-empty query, given a failing purchase-store write:
`saveOrder_` stops at the short-circuit `&&` and never touches the
query-purchase counter, refuting "attempts all three writes even when
one of them fails". -/
theorem saveOrder_shortCircuit_cex :
    orderWithQuery ≠ [] ∧
    convertOrderItemVec_ recEnvPurchaseFails orderWithQuery = some [1] ∧
    (∃ it ∈ orderWithQuery, it.query ≠ "") ∧
    saveOrder_ recEnvPurchaseFails "u1" "o1" orderWithQuery =
      (false, [.addOrder [1], .addPurchase "u1" [1]]) ∧
    (saveOrder_ recEnvPurchaseFails "u1" "o1" orderWithQuery).2.all
      (fun e => !isCounterEvent e) = true := by
  decide

/-- The counter loop reads the counter once per order item with a
non-empty query. -/
lemma insertPurchaseCounter_reads (env : RecEnv) :
    ∀ (its : List OrderItem) (ids : List Nat),
      ((insertPurchaseCounter_ env its ids).2.countP isCounterGet) =
        ((its.zip ids).filter (fun p => !(p.1.query == ""))).length := by
  intro its
  induction its with
  | nil => intro ids; cases ids <;> rfl
  | cons it rest ih =>
    intro ids
    cases ids with
    | nil => rfl
    | cons i is =>
      by_cases hq : it.query = ""
      · simp [insertPurchaseCounter_, hq, List.countP_cons, isCounterGet, ih is,
          List.zip_cons_cons]
      · have hq' : (it.query == "") = false := by
          simpa using hq
        by_cases hg : env.counterGetOk it.query = true
        · by_cases hu : env.counterUpdateOk it.query = true
          · simp [insertPurchaseCounter_, hq, hg, hu, List.countP_cons, isCounterGet,
              ih is, List.zip_cons_cons, hq']
          · simp [insertPurchaseCounter_, hq, hg, hu, List.countP_cons, isCounterGet,
              ih is, List.zip_cons_cons, hq']
        · simp [insertPurchaseCounter_, hq, hg, List.countP_cons, isCounterGet,
            ih is, List.zip_cons_cons, hq']

/-- C5 amended.  For a non-empty order whose items all resolve:
`saveOrder_` writes the order store unconditionally (that write
returns no outcome), then attempts the purchase store; the
query-purchase counter is attempted only when the purchase-store write
succeeds, in which case each order item with a non-empty query gets
its counter read (and a failed per-item read or write marks the result
false without stopping the remaining items); the returned flag is the
short-circuit conjunction of the purchase-store and counter
outcomes. -/
theorem saveOrder_write_semantics (env : RecEnv) (u oid : String)
    (items : List OrderItem) (ids : List Nat)
    (hne : items ≠ []) (hconv : convertOrderItemVec_ env items = some ids) :
    saveOrder_ env u oid items =
      (env.addPurchaseOk u ids && (insertPurchaseCounter_ env items ids).1,
       .addOrder ids :: .addPurchase u ids ::
         (if env.addPurchaseOk u ids then (insertPurchaseCounter_ env items ids).2
          else [])) ∧
    ((insertPurchaseCounter_ env items ids).2.countP isCounterGet =
      ((items.zip ids).filter (fun p => !(p.1.query == ""))).length) := by
  have hempty : items.isEmpty = false := by
    cases items with
    | nil => exact absurd rfl hne
    | cons a l => rfl
  refine ⟨?_, insertPurchaseCounter_reads env items ids⟩
  unfold saveOrder_
  rw [hconv]
  simp only [hempty, Bool.false_eq_true, if_false]
  by_cases hp : env.addPurchaseOk u ids = true
  · simp [hp]
  · have hp' : env.addPurchaseOk u ids = false := by
      simpa using hp
    simp [hp']

/-- A recommend-store fixture where both items resolve and every store
write succeeds. -/
def recEnvAllOk : RecEnv where
  strIdToItemId := fun s => if s = "i1" then some 1 else if s = "i2" then some 2 else none
  addPurchaseOk := fun _ _ => true
  counterGetOk := fun _ => true
  counterUpdateOk := fun _ => true

/-- Witness for `saveOrder_write_semantics`: a two-item order, one
item with a query and one without. -/
theorem saveOrder_write_semantics_witness :
    ([⟨"i1", "q"⟩, ⟨"i2", ""⟩] : List OrderItem) ≠ [] ∧
    convertOrderItemVec_ recEnvAllOk [⟨"i1", "q"⟩, ⟨"i2", ""⟩] = some [1, 2] ∧
    (saveOrder_ recEnvAllOk "u1" "o1" [⟨"i1", "q"⟩, ⟨"i2", ""⟩] =
      (recEnvAllOk.addPurchaseOk "u1" [1, 2] &&
        (insertPurchaseCounter_ recEnvAllOk [⟨"i1", "q"⟩, ⟨"i2", ""⟩] [1, 2]).1,
       .addOrder [1, 2] :: .addPurchase "u1" [1, 2] ::
         (if recEnvAllOk.addPurchaseOk "u1" [1, 2] then
            (insertPurchaseCounter_ recEnvAllOk [⟨"i1", "q"⟩, ⟨"i2", ""⟩] [1, 2]).2
          else [])) ∧
     ((insertPurchaseCounter_ recEnvAllOk [⟨"i1", "q"⟩, ⟨"i2", ""⟩] [1, 2]).2.countP
        isCounterGet =
      ((([⟨"i1", "q"⟩, ⟨"i2", ""⟩] : List OrderItem).zip [1, 2]).filter
        (fun p => !(p.1.query == ""))).length)) :=
  ⟨by decide, by decide,
    saveOrder_write_semantics recEnvAllOk "u1" "o1" [⟨"i1", "q"⟩, ⟨"i2", ""⟩] [1, 2]
      (by decide) (by decide)⟩

/-- A successful assoc lookup names a binding of the list. -/
lemma assocFind_mem_str {α : Type} {l : List (String × α)} {k : String} {v : α}
    (h : assocFind l k = some v) : (k, v) ∈ l := by
  unfold assocFind at h
  cases hf : l.find? (fun p => p.1 == k) with
  | none => rw [hf] at h; exact absurd h (by simp)
  | some q =>
    rw [hf] at h
    have hq := List.find?_some hf
    have hm : q ∈ l := List.mem_of_find?_eq_some hf
    have hv : q.2 = v := by injection h
    have hk : q.1 = k := by simpa using hq
    have : q = (k, v) := by
      cases q
      simp_all
    rwa [this] at hm

/-- Filtering a key out of the store leaves lookups of other keys
unchanged. -/
lemma find?_filter_keyne (l : List (Nat × StoredDoc)) (d x : Nat) (hx : x ≠ d) :
    (l.filter (fun p => !(p.1 == d))).find? (fun p => p.1 == x) =
      l.find? (fun p => p.1 == x) := by
  induction l with
  | nil => rfl
  | cons a rest ih =>
    by_cases had : a.1 = d
    · have h1 : (!(a.1 == d)) = false := by simp [had]
      have h2 : (a.1 == x) = false := by
        simp [had]
        exact fun hxx => hx hxx.symm
      rw [List.filter_cons, h1, if_neg (by simp)]
      conv_rhs => rw [show List.find? (fun p => p.1 == x) (a :: rest) =
        List.find? (fun p => p.1 == x) rest by simp only [List.find?, h2]]
      exact ih
    · have h1 : (!(a.1 == d)) = true := by simp [had]
      rw [List.filter_cons, h1, if_pos rfl]
      by_cases hax : a.1 = x
      · have h2 : (a.1 == x) = true := by simp [hax]
        simp only [List.find?, h2]
      · have h2 : (a.1 == x) = false := by simp [hax]
        simp only [List.find?, h2, ih]

/-- After filtering a key out of the store, looking that key up finds
nothing. -/
lemma find?_filter_keyeq (l : List (Nat × StoredDoc)) (d : Nat) :
    (l.filter (fun p => !(p.1 == d))).find? (fun p => p.1 == d) = none := by
  rw [List.find?_eq_none]
  intro p hp
  have := List.of_mem_filter hp
  simp at this ⊢
  exact this

/-- What `removeDocument` does on a live docid. -/
lemma removeDocument_spec {dm : DocStore} {d : Nat} {oldProps : StoredDoc}
    (h : dm.getDocument d = some oldProps) :
    dm.removeDocument d =
      (true, { dm with docs := dm.docs.filter (fun p => !(p.1 == d))
                       deleted := dm.deleted ++ [d] }) := by
  unfold DocStore.removeDocument
  rw [h]

/-- A removed docid is no longer live. -/
lemma getDocument_removeDocument_self (dm : DocStore) (d : Nat) :
    ((dm.removeDocument d).2).getDocument d = none := by
  unfold DocStore.removeDocument
  cases hd : dm.getDocument d with
  | some doc =>
    unfold DocStore.getDocument
    rw [find?_filter_keyeq dm.docs d]
  | none => exact hd

/-- Removing one docid leaves every other docid's lookup unchanged. -/
lemma getDocument_removeDocument_other (dm : DocStore) (d x : Nat) (hx : x ≠ d) :
    ((dm.removeDocument d).2).getDocument x = dm.getDocument x := by
  unfold DocStore.removeDocument
  cases hd : dm.getDocument d with
  | some doc =>
    unfold DocStore.getDocument
    rw [find?_filter_keyne dm.docs d x hx]
  | none => rfl

/-- What a successful `insertDocument` produces. -/
lemma insertDocument_spec {dm dm' : DocStore} {d : Nat} {doc : StoredDoc}
    (h : dm.insertDocument d doc = some dm') :
    dm.getDocument d = none ∧
    dm'.docs = dm.docs ++ [(d, doc)] ∧
    dm'.deleted = dm.deleted.filter (fun x => !(x == d)) ∧
    dm'.getDocument d = some doc ∧
    (∀ x, x ≠ d → dm'.getDocument x = dm.getDocument x) := by
  unfold DocStore.insertDocument at h
  cases hd : dm.getDocument d with
  | some _ => rw [hd] at h; exact absurd h (by simp)
  | none =>
    rw [hd] at h
    have hdm : { docs := dm.docs ++ [(d, doc)]
                 deleted := dm.deleted.filter (fun x => !(x == d))
                 maxDocId := max dm.maxDocId d : DocStore } = dm' := by
      injection h
    subst hdm
    have hnone : dm.docs.find? (fun p => p.1 == d) = none := by
      unfold DocStore.getDocument at hd
      cases hf : dm.docs.find? (fun p => p.1 == d) with
      | none => rfl
      | some q => rw [hf] at hd; exact absurd hd (by simp)
    refine ⟨rfl, rfl, rfl, ?_, ?_⟩
    · unfold DocStore.getDocument
      rw [List.find?_append, hnone]
      simp [List.find?]
    · intro x hx
      have hbdx : (d == x) = false := by
        simpa using Ne.symm hx
      have hone : ([(d, doc)].find? (fun p => p.1 == x)) = none := by
        simp [List.find?, hbdx]
      unfold DocStore.getDocument
      rw [List.find?_append, hone]
      cases dm.docs.find? (fun p => p.1 == x) <;> rfl

/-- C2.  Docid management of an update: an R-type update keeps the
existing docid (the id manager is untouched and the new docid equals
the old), while a non-R-type update makes the id manager issue a
strictly larger fresh docid, and the store update then removes the old
docid's document from the document store (marking it deleted) and
holds the replacement under the new docid. -/
theorem updateDoc_docid_semantics (idm idmR idmU : IdManager) (h : String)
    (oR nR oU nU : Nat) (st st' : IndexState) (doc oldProps : StoredDoc)
    (hWF : idm.WF)
    (hR : createUpdateDocId_ idm h true = some (idmR, oR, nR))
    (hU : createUpdateDocId_ idm h false = some (idmU, oU, nU))
    (hlive : st.dm.getDocument oU = some oldProps)
    (hupd : updateDoc_ st nU oU doc false = (st', true)) :
    nR = oR ∧ idmR = idm ∧
    oU < nU ∧ nU = idm.nextId ∧
    st'.dm.getDocument oU = none ∧ oU ∈ st'.dm.deleted ∧
    st'.dm.getDocument nU = some doc := by
  -- the R-type branch of createUpdateDocId_
  have hRparts : idmR = idm ∧ nR = oR := by
    unfold createUpdateDocId_ at hR
    simp only [if_true] at hR
    cases hf : idm.getDocIdByDocName h with
    | none => rw [hf] at hR; exact absurd hR (by simp)
    | some o0 =>
      rw [hf] at hR
      have h1 : idm = idmR ∧ o0 = oR ∧ o0 = nR := by
        simpa [Prod.ext_iff] using hR
      exact ⟨h1.1.symm, h1.2.2.symm.trans h1.2.1⟩
  -- the non-R-type branch: updateDocIdByDocName
  have hUparts : oU < nU ∧ nU = idm.nextId := by
    unfold createUpdateDocId_ at hU
    simp only [Bool.false_eq_true, if_false] at hU
    unfold IdManager.updateDocIdByDocName at hU
    cases hf : assocFind idm.mapping h with
    | none => rw [hf] at hU; exact absurd hU (by simp)
    | some old =>
      rw [hf] at hU
      simp only [Option.some.injEq, Prod.mk.injEq] at hU
      obtain ⟨-, h2, h3⟩ := hU
      have hmem : (h, old) ∈ idm.mapping := assocFind_mem_str hf
      have hlt : old < idm.nextId := hWF (h, old) hmem
      exact ⟨h2 ▸ h3 ▸ hlt, h3.symm⟩
  have hne : oU ≠ nU := Nat.ne_of_lt hUparts.1
  -- the non-R-type branch of updateDoc_
  unfold updateDoc_ at hupd
  simp only [Bool.false_eq_true, if_false] at hupd
  cases hins : ((st.dm.removeDocument oU).2).insertDocument nU doc with
  | none =>
    rw [hins] at hupd
    exact absurd (congrArg Prod.snd hupd) (by simp)
  | some dm2 =>
    rw [hins] at hupd
    have hst' : st' = { st with dm := dm2
                                indexOps := st.indexOps ++ [.updateIndex oU nU] } := by
      have := congrArg Prod.fst hupd
      simpa using this.symm
    obtain ⟨-, hdocs, hdel, hat, hother⟩ := insertDocument_spec hins
    subst hst'
    refine ⟨hRparts.2, hRparts.1, hUparts.1, hUparts.2, ?_, ?_, ?_⟩
    · have h1 := hother oU hne
      rw [h1, getDocument_removeDocument_self]
    · have hremdel : ((st.dm.removeDocument oU).2).deleted =
          st.dm.deleted ++ [oU] := by
        unfold DocStore.removeDocument
        rw [hlive]
      rw [hdel, hremdel]
      rw [List.mem_filter]
      refine ⟨by simp, by simp [hne]⟩
    · exact hat

/-- An updated document for the C2 witness. -/
def newTitleDoc : StoredDoc := [("DOCID", .str "A"), ("title", .str "y")]

/-- The worker state after the C2 witness update. -/
def testStAfterUpdate : IndexState :=
  { idm := testIdm
    dm := { docs := [(7, newTitleDoc)], deleted := [3], maxDocId := 7 }
    indexOps := [.updateIndex 3 7], srcCount := [] }

/-- Witness for `updateDoc_docid_semantics`: DOCID "A" at docid 3 is
updated; the id manager issues docid 7, docid 3 is removed and the
replacement lives at docid 7. -/
theorem updateDoc_docid_semantics_witness :
    testIdm.WF ∧
    createUpdateDocId_ testIdm "A" true = some (testIdm, 3, 3) ∧
    createUpdateDocId_ testIdm "A" false =
      some ({ mapping := [("A", 7)], nextId := 8 }, 3, 7) ∧
    testSt.dm.getDocument 3 =
      some [("DOCID", .str "A"), ("title", .str "x"), ("price", .str "10")] ∧
    updateDoc_ testSt 7 3 newTitleDoc false = (testStAfterUpdate, true) ∧
    ((3 : Nat) = 3 ∧ testIdm = testIdm ∧
     3 < 7 ∧ 7 = testIdm.nextId ∧
     testStAfterUpdate.dm.getDocument 3 = none ∧
     3 ∈ testStAfterUpdate.dm.deleted ∧
     testStAfterUpdate.dm.getDocument 7 = some newTitleDoc) :=
  ⟨by decide, by decide, by decide, by decide, by decide,
    updateDoc_docid_semantics testIdm testIdm { mapping := [("A", 7)], nextId := 8 }
      "A" 3 3 3 7 testSt testStAfterUpdate newTitleDoc
      [("DOCID", .str "A"), ("title", .str "x"), ("price", .str "10")]
      (by decide) (by decide) (by decide) (by decide) (by decide)⟩

/-- With no product-source field configured, the deletion loop never
aborts: it attempts `deleteDoc_` on every docid, in list order. -/
lemma deleteLoop_no_source (env : IndexEnv) (hsrc : env.productSourceField = "") :
    ∀ (docIds : List Nat) (st : IndexState) (trace : List Nat),
      deleteLoop env st docIds trace =
        (true, docIds.foldl (fun s d => (deleteDoc_ s d).1) st, trace ++ docIds) := by
  intro docIds
  induction docIds with
  | nil =>
    intro st trace
    simp [deleteLoop]
  | cons d rest ih =>
    intro st trace
    unfold deleteLoop
    simp only [hsrc, ne_eq, not_true_eq_false, if_false, ite_false]
    rw [ih]
    simp

/-- Keeping only the resolvable entries does not change what a
`filterMap` produces. -/
lemma filterMap_filter_isSome {α β : Type} (f : α → Option β) (l : List α) :
    (l.filter (fun a => (f a).isSome)).filterMap f = l.filterMap f := by
  induction l with
  | nil => rfl
  | cons a rest ih =>
    cases hf : f a with
    | none => simp [List.filter_cons, List.filterMap_cons, hf, ih]
    | some b => simp [List.filter_cons, List.filterMap_cons, hf, ih]

/-- Two lists that are permutations of each other sort to the same
ascending list. -/
lemma insertionSort_eq_of_perm {l₁ l₂ : List Nat} (h : l₁.Perm l₂) :
    List.insertionSort (· ≤ ·) l₁ = List.insertionSort (· ≤ ·) l₂ :=
  List.eq_of_perm_of_sorted
    ((List.perm_insertionSort _ l₁).trans (h.trans (List.perm_insertionSort _ l₂).symm))
    (List.sorted_insertionSort _ l₁) (List.sorted_insertionSort _ l₂)

/-- Evaluation of `deleteSCD_` when no product-source field is
configured. -/
lemma deleteSCD_eval (env : IndexEnv) (st : IndexState)
    (hsrc : env.productSourceField = "") (m : List String) :
    deleteSCD_ env st (some m) =
      (true,
       (List.insertionSort (· ≤ ·) (m.filterMap st.idm.getDocIdByDocName)).foldl
         (fun s d => (deleteDoc_ s d).1) st,
       List.insertionSort (· ≤ ·) (m.filterMap st.idm.getDocIdByDocName)) := by
  show (let docIdList := List.filterMap st.idm.getDocIdByDocName m
        deleteLoop env st (List.insertionSort (fun a b => a ≤ b) docIdList) []) = _
  rw [deleteLoop_no_source env hsrc]
  simp

/-- C3.  For a delete bundle whose DOCID list materialises: the pass
succeeds (docids that do not resolve are skipped, and skipping them
leaves the whole outcome unchanged), and the docids handed to
`deleteDoc_` are exactly the resolved ones sorted ascending — in
particular the deletion order is sorted and independent of the order
the DOCIDs appear in the file.  (The theorem assumes no product-source
field is configured; that orthogonal counter path is the only other
exit of the loop.) -/
theorem deleteSCD_ascending_and_skip (env : IndexEnv) (st : IndexState)
    (l l' : List String) (hsrc : env.productSourceField = "")
    (hperm : l'.Perm l) :
    (deleteSCD_ env st (some l)).1 = true ∧
    (deleteSCD_ env st (some l)).2.2 =
      List.insertionSort (· ≤ ·) (l.filterMap st.idm.getDocIdByDocName) ∧
    List.Sorted (· ≤ ·) (deleteSCD_ env st (some l)).2.2 ∧
    deleteSCD_ env st (some l') = deleteSCD_ env st (some l) ∧
    deleteSCD_ env st
      (some (l.filter (fun s => (st.idm.getDocIdByDocName s).isSome))) =
      deleteSCD_ env st (some l) := by
  have hperm2 : (l'.filterMap st.idm.getDocIdByDocName).Perm
      (l.filterMap st.idm.getDocIdByDocName) := hperm.filterMap _
  have hsorteq := insertionSort_eq_of_perm hperm2
  have hfiltereq := filterMap_filter_isSome st.idm.getDocIdByDocName l
  refine ⟨?_, ?_, ?_, ?_, ?_⟩
  · rw [deleteSCD_eval env st hsrc l]
  · rw [deleteSCD_eval env st hsrc l]
  · rw [deleteSCD_eval env st hsrc l]
    exact List.sorted_insertionSort _ _
  · rw [deleteSCD_eval env st hsrc l', deleteSCD_eval env st hsrc l, hsorteq]
  · rw [deleteSCD_eval env st hsrc _, deleteSCD_eval env st hsrc l, hfiltereq]

/-- An id manager for the C3 witness: three known DOCIDs. -/
def delIdm : IdManager := { mapping := [("A", 3), ("B", 1), ("C", 2)], nextId := 9 }

/-- A worker state for the C3 witness. -/
def delSt : IndexState :=
  { idm := delIdm
    dm := { docs := [(1, [("t", .str "a")]), (2, []), (3, [])], deleted := [], maxDocId := 3 }
    indexOps := []
    srcCount := [] }

/-- Witness for `deleteSCD_ascending_and_skip`: a delete bundle listing
DOCIDs out of order with an unresolvable entry "Z". -/
theorem deleteSCD_ascending_and_skip_witness :
    testEnv.productSourceField = "" ∧
    (["C", "B", "Z", "A"] : List String).Perm ["A", "Z", "B", "C"] ∧
    ((deleteSCD_ testEnv delSt (some ["A", "Z", "B", "C"])).1 = true ∧
     (deleteSCD_ testEnv delSt (some ["A", "Z", "B", "C"])).2.2 =
       List.insertionSort (· ≤ ·)
         ((["A", "Z", "B", "C"] : List String).filterMap delSt.idm.getDocIdByDocName) ∧
     List.Sorted (· ≤ ·) (deleteSCD_ testEnv delSt (some ["A", "Z", "B", "C"])).2.2 ∧
     deleteSCD_ testEnv delSt (some ["C", "B", "Z", "A"]) =
       deleteSCD_ testEnv delSt (some ["A", "Z", "B", "C"]) ∧
     deleteSCD_ testEnv delSt
       (some ((["A", "Z", "B", "C"] : List String).filter
         (fun s => (delSt.idm.getDocIdByDocName s).isSome))) =
       deleteSCD_ testEnv delSt (some ["A", "Z", "B", "C"])) :=
  ⟨rfl, by decide,
    deleteSCD_ascending_and_skip testEnv delSt ["A", "Z", "B", "C"]
      ["C", "B", "Z", "A"] rfl (by decide)⟩

/-- The changed-property rule of an R-type update: the property is
indexed, filterable and not analyzed, or not indexed at all. -/
def RtypeOk (cfg : PropertyConfig) : Prop :=
  (cfg.isIndex = true ∧ cfg.isFilter = true ∧ cfg.isAnalyzed = false) ∨
    cfg.isIndex = false

/-- The value `checkRtype_` compares against the persisted one: the
canonical date string for DATE, the raw value otherwise. -/
def effectiveNewValue (env : IndexEnv) (fv : String × String) : String :=
  if iequals fv.1 "DATE" then env.canonDate fv.2 else fv.2

/-- Soundness of the `checkRtype_` property loop: if it reaches the
end of the document, then every scanned non-DOCID property has a
schema entry, and — whenever its effective new value differs from the
persisted string value — satisfies the R-type rule. -/
lemma checkRtypeLoop_reachedEnd_sound (env : IndexEnv) (idm : IdManager)
    (dm : DocStore) (d : Nat) :
    ∀ (fields : SCDDoc) (acc : RtypeFieldValues) (isU : Bool),
      (checkRtypeLoop env idm dm d fields acc isU).1 = .reachedEnd →
      (∀ fv ∈ fields, iequals fv.1 "DOCID" = false) →
      ∀ fv ∈ fields, ∃ cfg, findSchema env.schema fv.1 = some cfg ∧
        ∀ old, dm.getPropertyValue d cfg.name = some (.str old) →
          effectiveNewValue env fv ≠ old → RtypeOk cfg := by
  intro fields
  induction fields with
  | nil => intro acc isU _ _ fv hfv; exact absurd hfv (by simp)
  | cons hd tl ih =>
    intro acc isU hend hnd
    obtain ⟨f, v⟩ := hd
    have hf : iequals f "DOCID" = false := hnd (f, v) (by simp)
    have hndtl : ∀ fv ∈ tl, iequals fv.1 "DOCID" = false :=
      fun x hx => hnd x (by simp [hx])
    rw [checkRtypeLoop] at hend
    rw [hf] at hend
    simp only [Bool.false_eq_true, if_false] at hend
    set nv : String := (if iequals f "DATE" = true then env.canonDate v else v)
      with hnv
    split at hend
    · -- findSchema = none: the loop broke
      simp at hend
    · rename_i cfg hsch
      split at hend
      · -- persisted value missing: the loop broke
        simp at hend
      · -- persisted value not string-typed: return false
        simp at hend
      · rename_i oldValueStr heq2
        split at hend
        · -- new value equals the persisted one: skipped
          rename_i hbeq
          intro fv hfv
          rcases List.mem_cons.mp hfv with hfv1 | hfv2
          · subst hfv1
            refine ⟨cfg, hsch, fun old' hpv' hneq => ?_⟩
            rw [heq2] at hpv'
            have h1 : StoredValue.str oldValueStr = StoredValue.str old' := by
              injection hpv'
            have hoo : oldValueStr = old' := by injection h1
            have heqv : effectiveNewValue env (f, v) = oldValueStr := by
              have hnveq : nv = oldValueStr := by simpa using hbeq
              rw [effectiveNewValue, ← hnv]
              exact hnveq
            exact absurd (heqv.trans hoo) hneq
          · exact ih acc isU hend hndtl fv hfv2
        · split at hend
          · -- changed, and indexed + filterable + not analyzed
            rename_i hrule
            intro fv hfv
            rcases List.mem_cons.mp hfv with hfv1 | hfv2
            · subst hfv1
              refine ⟨cfg, hsch, fun old' _ _ => ?_⟩
              left
              have h1 : (cfg.isIndex = true ∧ cfg.isFilter = true) ∧
                  cfg.isAnalyzed = false := by
                simpa [Bool.and_eq_true, Bool.not_eq_true'] using hrule
              exact ⟨h1.1.1, h1.1.2, h1.2⟩
            · exact ih _ _ hend hndtl fv hfv2
          · split at hend
            · -- changed, and not indexed
              rename_i hni
              intro fv hfv
              rcases List.mem_cons.mp hfv with hfv1 | hfv2
              · subst hfv1
                refine ⟨cfg, hsch, fun old' _ _ => ?_⟩
                right
                simpa using hni
              · exact ih _ _ hend hndtl fv hfv2
            · -- changed and violating: the loop broke
              simp at hend

/-- C1.  The R-type classifier is conservative: on an update document
whose leading property is the DOCID (the record delimiter of a
document bundle) resolving to docid `d`, classification as R-type
implies that every property whose effective new value differs from the
persisted value is (indexed ∧ filterable ∧ not analyzed) or not
indexed; conversely, any differing property violating the rule forces
classification to fail, making the update a full reindex. -/
theorem checkRtype_classification_sound (env : IndexEnv) (idm : IdManager)
    (dm : DocStore) (dv : String) (rest : SCDDoc) (d : Nat)
    (cfgD : PropertyConfig)
    (hD : findSchema env.schema "DOCID" = some cfgD)
    (hres : idm.getDocIdByDocName dv = some d)
    (hnd : ∀ fv ∈ rest, iequals fv.1 "DOCID" = false) :
    ((checkRtype_ env idm dm (("DOCID", dv) :: rest)).1 = true →
      ∀ fv ∈ rest, ∃ cfg, findSchema env.schema fv.1 = some cfg ∧
        ∀ old, dm.getPropertyValue d cfg.name = some (.str old) →
          effectiveNewValue env fv ≠ old → RtypeOk cfg) ∧
    (∀ fv ∈ rest, ∀ cfg old, findSchema env.schema fv.1 = some cfg →
      dm.getPropertyValue d cfg.name = some (.str old) →
      effectiveNewValue env fv ≠ old →
      cfg.isIndex = true → (cfg.isFilter = false ∨ cfg.isAnalyzed = true) →
      (checkRtype_ env idm dm (("DOCID", dv) :: rest)).1 = false) := by
  have hstep : checkRtypeLoop env idm dm 0 (("DOCID", dv) :: rest) [] false =
      checkRtypeLoop env idm dm d rest [] false := by
    rw [checkRtypeLoop, hD]
    have hdoc : iequals "DOCID" "DOCID" = true := by decide
    simp only [hdoc, if_true, hres]
  have hsound : (checkRtype_ env idm dm (("DOCID", dv) :: rest)).1 = true →
      ∀ fv ∈ rest, ∃ cfg, findSchema env.schema fv.1 = some cfg ∧
        ∀ old, dm.getPropertyValue d cfg.name = some (.str old) →
          effectiveNewValue env fv ≠ old → RtypeOk cfg := by
    intro htrue
    have hend : (checkRtypeLoop env idm dm d rest [] false).1 = .reachedEnd := by
      rcases hloop : checkRtypeLoop env idm dm d rest [] false with ⟨ex, acc, isU⟩
      cases ex with
      | reachedEnd => rfl
      | broke =>
        unfold checkRtype_ at htrue
        rw [hstep, hloop] at htrue
        exact absurd htrue (by simp)
      | badGet =>
        unfold checkRtype_ at htrue
        rw [hstep, hloop] at htrue
        exact absurd htrue (by simp)
    exact checkRtypeLoop_reachedEnd_sound env idm dm d rest [] false hend hnd
  refine ⟨hsound, ?_⟩
  intro fv hfv cfg old hcfg hpv hneq hidx hviol
  by_contra hfalse
  have htrue : (checkRtype_ env idm dm (("DOCID", dv) :: rest)).1 = true := by
    cases h : (checkRtype_ env idm dm (("DOCID", dv) :: rest)).1 with
    | true => rfl
    | false => exact absurd h hfalse
  obtain ⟨cfg', hcfg', hrule⟩ := hsound htrue fv hfv
  rw [hcfg] at hcfg'
  have hcc : cfg = cfg' := by injection hcfg'
  subst hcc
  rcases hrule old hpv hneq with ⟨-, hfil, hana⟩ | hnix
  · rcases hviol with hv | hv
    · rw [hfil] at hv; exact absurd hv (by simp)
    · rw [hana] at hv; exact absurd hv (by simp)
  · rw [hidx] at hnix; exact absurd hnix (by simp)

/-- Witness for `checkRtype_classification_sound`: a price change on
the fixture schema, classified R-type. -/
theorem checkRtype_classification_sound_witness :
    findSchema testEnv.schema "DOCID" =
      some { name := "DOCID", propType := .string, isIndex := true
             isAnalyzed := false, isFilter := false } ∧
    testIdm.getDocIdByDocName "A" = some 3 ∧
    (∀ fv ∈ ([("price", "12")] : SCDDoc), iequals fv.1 "DOCID" = false) ∧
    (((checkRtype_ testEnv testIdm testDm (("DOCID", "A") :: [("price", "12")])).1 = true →
      ∀ fv ∈ ([("price", "12")] : SCDDoc), ∃ cfg,
        findSchema testEnv.schema fv.1 = some cfg ∧
        ∀ old, testDm.getPropertyValue 3 cfg.name = some (.str old) →
          effectiveNewValue testEnv fv ≠ old → RtypeOk cfg) ∧
     (∀ fv ∈ ([("price", "12")] : SCDDoc), ∀ cfg old,
      findSchema testEnv.schema fv.1 = some cfg →
      testDm.getPropertyValue 3 cfg.name = some (.str old) →
      effectiveNewValue testEnv fv ≠ old →
      cfg.isIndex = true → (cfg.isFilter = false ∨ cfg.isAnalyzed = true) →
      (checkRtype_ testEnv testIdm testDm (("DOCID", "A") :: [("price", "12")])).1 = false)) :=
  ⟨by decide, by decide, by decide,
    checkRtype_classification_sound testEnv testIdm testDm "A" [("price", "12")] 3
      { name := "DOCID", propType := .string, isIndex := true
        isAnalyzed := false, isFilter := false }
      (by decide) (by decide) (by decide)⟩

/-- If every scanned property's effective new value equals the
persisted one, the classifier loop reaches the end leaving both
out-parameters untouched. -/
lemma checkRtypeLoop_all_equal (env : IndexEnv) (idm : IdManager) (dm : DocStore)
    (d : Nat) :
    ∀ (fields : SCDDoc),
      (∀ fv ∈ fields, iequals fv.1 "DOCID" = false ∧
        ∃ cfg old, findSchema env.schema fv.1 = some cfg ∧
          dm.getPropertyValue d cfg.name = some (.str old) ∧
          effectiveNewValue env fv = old) →
      ∀ acc isU, checkRtypeLoop env idm dm d fields acc isU = (.reachedEnd, acc, isU) := by
  intro fields
  induction fields with
  | nil => intro _ acc isU; rfl
  | cons hd tl ih =>
    intro hall acc isU
    obtain ⟨f, v⟩ := hd
    obtain ⟨hf, cfg, old, hsch, hpv, heqv⟩ := hall (f, v) (by simp)
    have halltl : ∀ fv ∈ tl, iequals fv.1 "DOCID" = false ∧
        ∃ cfg old, findSchema env.schema fv.1 = some cfg ∧
          dm.getPropertyValue d cfg.name = some (.str old) ∧
          effectiveNewValue env fv = old :=
      fun x hx => hall x (by simp [hx])
    have heqv' : (if iequals f "DATE" = true then env.canonDate v else v) = old := by
      simpa [effectiveNewValue] using heqv
    rw [checkRtypeLoop, hsch]
    simp only [hf, Bool.false_eq_true, if_false, hpv, heqv']
    simp only [beq_self_eq_true, if_true]
    exact ih halltl acc isU

/-- C9.  An update document (insert mode off) whose DOCID leads the
record and resolves, and whose every remaining property carries the
value already persisted for that docid, is skipped entirely:
`prepareDocument_` returns false, and the per-document update step
leaves the id manager, the document store and the index store
untouched. -/
theorem unchanged_update_skipped (env : IndexEnv) (st : IndexState)
    (dv : String) (rest : SCDDoc) (d : Nat) (cfgD : PropertyConfig) (ts : Int)
    (hD : findSchema env.schema "DOCID" = some cfgD)
    (hres : st.idm.getDocIdByDocName dv = some d)
    (hall : ∀ fv ∈ rest, iequals fv.1 "DOCID" = false ∧
      ∃ cfg old, findSchema env.schema fv.1 = some cfg ∧
        st.dm.getPropertyValue d cfg.name = some (.str old) ∧
        effectiveNewValue env fv = old) :
    prepareDocument_ env st.idm st.dm (("DOCID", dv) :: rest) ts false = none ∧
    processUpdateDoc_ env st (("DOCID", dv) :: rest) ts = (st, false) := by
  have hdoc : iequals "DOCID" "DOCID" = true := by decide
  have hcheck : checkRtype_ env st.idm st.dm (("DOCID", dv) :: rest) =
      (true, [], false) := by
    unfold checkRtype_
    rw [checkRtypeLoop, hD]
    simp only [hdoc, if_true, hres]
    rw [checkRtypeLoop_all_equal env st.idm st.dm d rest hall [] false]
  have hloop : ∀ (p : PrepState), p.insert = false → p.idm = st.idm →
      prepareLoop env st.dm (("DOCID", dv) :: rest) (("DOCID", dv) :: rest) p =
        none := by
    intro p hins hidm
    rw [prepareLoop.eq_def]
    by_cases hps : (env.productSourceField ≠ "" ∧
        iequals "DOCID" env.productSourceField = true)
    · simp [hps, hD, hdoc, hins, hidm, hcheck]
    · simp [hps, hD, hdoc, hins, hidm, hcheck]
  have hprep : prepareDocument_ env st.idm st.dm (("DOCID", dv) :: rest) ts false =
      none := by
    unfold prepareDocument_
    simp [hloop]
  refine ⟨hprep, ?_⟩
  unfold processUpdateDoc_
  rw [hprep]

/-- Witness for `unchanged_update_skipped`: an update of DOCID "A"
repeating the stored price and title verbatim is skipped with no store
mutation. -/
theorem unchanged_update_skipped_witness :
    findSchema testEnv.schema "DOCID" =
      some ⟨"DOCID", .string, true, false, false⟩ ∧
    testSt.idm.getDocIdByDocName "A" = some 3 ∧
    (∀ fv ∈ ([("price", "10"), ("title", "x")] : SCDDoc),
      iequals fv.1 "DOCID" = false ∧
      ∃ cfg old, findSchema testEnv.schema fv.1 = some cfg ∧
        testSt.dm.getPropertyValue 3 cfg.name = some (.str old) ∧
        effectiveNewValue testEnv fv = old) ∧
    (prepareDocument_ testEnv testSt.idm testSt.dm
        (("DOCID", "A") :: [("price", "10"), ("title", "x")]) 5 false = none ∧
     processUpdateDoc_ testEnv testSt
        (("DOCID", "A") :: [("price", "10"), ("title", "x")]) 5 = (testSt, false)) := by
  have hall : ∀ fv ∈ ([("price", "10"), ("title", "x")] : SCDDoc),
      iequals fv.1 "DOCID" = false ∧
      ∃ cfg old, findSchema testEnv.schema fv.1 = some cfg ∧
        testSt.dm.getPropertyValue 3 cfg.name = some (.str old) ∧
        effectiveNewValue testEnv fv = old := by
    intro fv hfv
    rcases List.mem_cons.mp hfv with h | hfv2
    · subst h
      exact ⟨by decide, ⟨"price", .int, true, false, true⟩, "10",
        by decide, by decide, by decide⟩
    rcases List.mem_cons.mp hfv2 with h | hfv3
    · subst h
      exact ⟨by decide, ⟨"title", .string, true, true, false⟩, "x",
        by decide, by decide, by decide⟩
    · exact absurd hfv3 (by simp)
  exact ⟨by decide, by decide, hall,
    unchanged_update_skipped testEnv testSt "A" [("price", "10"), ("title", "x")] 3
      ⟨"DOCID", .string, true, false, false⟩ 5 (by decide) (by decide) hall⟩

/-- Unfolding an assoc lookup one binding at a time. -/
lemma assocFind_cons {κ α : Type} [BEq κ] (k' : κ) (v' : α) (l : List (κ × α))
    (k : κ) :
    assocFind ((k', v') :: l) k =
      if (k' == k) = true then some v' else assocFind l k := by
  unfold assocFind
  by_cases h : (k' == k) = true
  · rw [if_pos h, List.find?_cons_of_pos _ (by simpa using h)]
  · rw [if_neg h, List.find?_cons_of_neg _ (by simpa using h)]

/-- Overwriting an existing key keeps the map's size. -/
lemma assocSet_length_of_found {κ α : Type} [BEq κ] (l : List (κ × α)) (k : κ)
    (v w : α) (h : assocFind l k = some v) :
    (assocSet l k w).length = l.length := by
  induction l with
  | nil => simp [assocFind] at h
  | cons e rest ih =>
    obtain ⟨k', v'⟩ := e
    rw [assocFind_cons] at h
    unfold assocSet
    by_cases hk : (k' == k) = true
    · rw [if_pos hk]
      rfl
    · rw [if_neg hk] at h
      rw [if_neg hk]
      simp [ih h]

/-- All items accumulated in the order map, in entry order. -/
def mapItems (m : OrderMap) : List OrderItem :=
  m.flatMap (fun e => e.2)

/-- All items carried by a list of `saveOrder_` calls. -/
def callItems (cs : List SaveCall) : List OrderItem :=
  cs.flatMap (fun c => c.2.2)

/-- Flushing the map writes exactly the accumulated items. -/
lemma callItems_saveOrderMap (m : OrderMap) :
    callItems (saveOrderMap_ m) = mapItems m := by
  induction m with
  | nil => rfl
  | cons e rest ih =>
    simp [callItems, saveOrderMap_, mapItems] at ih ⊢
    rw [ih]

/-- Appending an item to an existing entry adds exactly that item to
the accumulated multiset. -/
lemma mapItems_assocSet (m : OrderMap) (k : String × String)
    (items : List OrderItem) (it : OrderItem)
    (hf : assocFind m k = some items) :
    (mapItems (assocSet m k (items ++ [it]))).Perm (it :: mapItems m) := by
  induction m with
  | nil => simp [assocFind] at hf
  | cons e rest ih =>
    obtain ⟨k₀, v₀⟩ := e
    rw [assocFind_cons] at hf
    unfold assocSet
    by_cases hk : (k₀ == k) = true
    · rw [if_pos hk] at hf ⊢
      have hv : v₀ = items := by injection hf
      subst hv
      simp only [mapItems, List.flatMap_cons]
      rw [List.append_assoc]
      exact List.perm_middle
    · rw [if_neg hk] at hf ⊢
      simp only [mapItems, List.flatMap_cons]
      have h1 := List.Perm.append_left v₀ (ih hf)
      simp only [mapItems] at h1
      exact h1.trans List.perm_middle

/-- One `loadOrderItem_` step conserves items: whatever ends in the
updated map plus whatever was written out is the old map's content
plus the new item. -/
lemma loadOrderItem_items (u oid : String) (it : OrderItem) (m : OrderMap) :
    (mapItems (loadOrderItem_ u oid it m).1 ++
      callItems (loadOrderItem_ u oid it m).2).Perm (it :: mapItems m) := by
  unfold loadOrderItem_
  by_cases hoid : oid = ""
  · rw [if_pos hoid]
    show (mapItems m ++ [it]).Perm (it :: mapItems m)
    exact List.perm_append_singleton it (mapItems m)
  · rw [if_neg hoid]
    cases hf : assocFind m (u, oid) with
    | some items =>
      show (mapItems (assocSet m (u, oid) (items ++ [it])) ++ []).Perm
        (it :: mapItems m)
      rw [List.append_nil]
      exact mapItems_assocSet m (u, oid) items it hf
    | none =>
      by_cases hfull : MAX_ORDER_NUM ≤ m.length
      · rw [if_pos hfull]
        show (([it] ++ []) ++ callItems (saveOrderMap_ m)).Perm (it :: mapItems m)
        rw [callItems_saveOrderMap]
        simp
      · rw [if_neg hfull]
        show (mapItems (m ++ [((u, oid), [it])]) ++ []).Perm (it :: mapItems m)
        rw [List.append_nil]
        unfold mapItems
        rw [List.flatMap_append]
        show (m.flatMap (fun e => e.2) ++ [it]).Perm _
        exact List.perm_append_singleton it _

/-- One `loadOrderItem_` step keeps the map within the bound. -/
lemma loadOrderItem_length (u oid : String) (it : OrderItem) (m : OrderMap)
    (hb : m.length ≤ MAX_ORDER_NUM) :
    ((loadOrderItem_ u oid it m).1).length ≤ MAX_ORDER_NUM := by
  unfold loadOrderItem_
  by_cases hoid : oid = ""
  · rw [if_pos hoid]; exact hb
  · rw [if_neg hoid]
    cases hf : assocFind m (u, oid) with
    | some items =>
      show (assocSet m (u, oid) (items ++ [it])).length ≤ MAX_ORDER_NUM
      rw [assocSet_length_of_found m (u, oid) items (items ++ [it]) hf]
      exact hb
    | none =>
      by_cases hfull : MAX_ORDER_NUM ≤ m.length
      · rw [if_pos hfull]
        show ([((u, oid), [it])]).length ≤ MAX_ORDER_NUM
        simp [MAX_ORDER_NUM]
      · rw [if_neg hfull]
        show (m ++ [((u, oid), [it])]).length ≤ MAX_ORDER_NUM
        simp only [List.length_append, List.length_singleton]
        exact Nat.lt_of_not_le hfull

/-- The whole record loop keeps the map within the bound. -/
lemma ingestLoop_length :
    ∀ (records : List OrderRecord) (st : OrderMap × List SaveCall),
      st.1.length ≤ MAX_ORDER_NUM →
      ((records.foldl ingestStep st).1).length ≤ MAX_ORDER_NUM := by
  intro records
  induction records with
  | nil => intro st h; exact h
  | cons r rest ih =>
    intro st h
    rw [List.foldl_cons]
    apply ih
    cases r with
    | none => exact h
    | some t =>
      obtain ⟨u, oid, it⟩ := t
      exact loadOrderItem_length u oid it st.1 h

/-- `callItems` distributes over appended call lists. -/
lemma callItems_append (a b : List SaveCall) :
    callItems (a ++ b) = callItems a ++ callItems b :=
  List.flatMap_append a b _

/-- Item conservation over the whole record loop: the final map
content plus everything written equals the parsed items plus the
initial content, up to order. -/
lemma ingestLoop_items :
    ∀ (records : List OrderRecord) (m : OrderMap) (calls : List SaveCall),
      (mapItems (records.foldl ingestStep (m, calls)).1 ++
        callItems (records.foldl ingestStep (m, calls)).2).Perm
      (((records.filterMap id).map (fun r => r.2.2)) ++
        (mapItems m ++ callItems calls)) := by
  intro records
  induction records with
  | nil =>
    intro m calls
    simp
  | cons r rest ih =>
    intro m calls
    cases r with
    | none =>
      rw [List.foldl_cons]
      have h := ih m calls
      simpa using h
    | some t =>
      obtain ⟨u, oid, it⟩ := t
      rw [List.foldl_cons]
      have hstep := loadOrderItem_items u oid it m
      have h2 := ih (loadOrderItem_ u oid it m).1
        (calls ++ (loadOrderItem_ u oid it m).2)
      refine h2.trans ?_
      rw [callItems_append]
      have hmid : (mapItems (loadOrderItem_ u oid it m).1 ++
          (callItems calls ++ callItems (loadOrderItem_ u oid it m).2)).Perm
          (it :: (mapItems m ++ callItems calls)) := by
        refine (List.Perm.append_left _ List.perm_append_comm).trans ?_
        rw [← List.append_assoc]
        exact hstep.append_right _
      refine (List.Perm.append_left _ hmid).trans ?_
      have hAll : (((some (u, oid, it) :: rest).filterMap id).map
          (fun r => r.2.2)) = it :: ((rest.filterMap id).map (fun r => r.2.2)) := by
        simp
      rw [hAll]
      exact List.perm_middle

/-- C7.  The OrderMap discipline of order ingestion: the staging map
never exceeds `MAX_ORDER_NUM` entries at any point of the record loop
(any run of the loop, from the empty map, ends within the bound — and
every intermediate state is such a run on a prefix); adding a fresh
key to a full map first flushes the whole map via `saveOrderMap_` and
clears it; every parsed item ends up in some `saveOrder_` call before
the file's parse finishes (the items written across all calls are a
permutation of the parsed items); and an order with an empty order id
is written through immediately as a singleton, not entering the
map. -/
theorem orderMap_bounded_and_flushed (records : List OrderRecord)
    (m : OrderMap) (u oid : String) (it : OrderItem)
    (hfresh : assocFind m (u, oid) = none)
    (hfull : MAX_ORDER_NUM ≤ m.length) (hoid : oid ≠ "") :
    (ingestOrders records).1.length ≤ MAX_ORDER_NUM ∧
    loadOrderItem_ u oid it m = ([((u, oid), [it])], saveOrderMap_ m) ∧
    (callItems (parseOrderCalls records)).Perm
      ((records.filterMap id).map (fun r => r.2.2)) ∧
    (∀ (m' : OrderMap) (u' : String) (it' : OrderItem),
      loadOrderItem_ u' "" it' m' = (m', [(u', "", [it'])])) := by
  refine ⟨?_, ?_, ?_, ?_⟩
  · unfold ingestOrders
    exact ingestLoop_length records ([], []) (by simp [MAX_ORDER_NUM])
  · unfold loadOrderItem_
    rw [if_neg hoid]
    cases hf : assocFind m (u, oid) with
    | some items => exact absurd (hfresh.symm.trans hf) (by simp)
    | none => rw [if_pos hfull]
  · unfold parseOrderCalls ingestOrders
    rw [callItems_append, callItems_saveOrderMap]
    refine List.perm_append_comm.trans ?_
    have h := ingestLoop_items records [] []
    have h0 : mapItems ([] : OrderMap) ++ callItems ([] : List SaveCall) =
        ([] : List OrderItem) := rfl
    rw [h0] at h
    simpa using h
  · intro m' u' it'
    unfold loadOrderItem_
    rw [if_pos rfl]

/-- No lookup succeeds in a map replicating a different key. -/
lemma assocFind_replicate_none {κ α : Type} [BEq κ] (n : Nat) (k₀ : κ) (v : α)
    (k : κ) (h : (k₀ == k) = false) :
    assocFind (List.replicate n (k₀, v)) k = none := by
  induction n with
  | zero => rfl
  | succ n ih =>
    rw [List.replicate_succ, assocFind_cons, if_neg (by simp [h]), ih]

/-- A full staging map (1000 entries) for the C7 witness. -/
def bigOrderMap : OrderMap :=
  List.replicate 1000 (("z", "z"), [⟨"w", ""⟩])

/-- Three order records for the C7 witness: a keyed order, a parse
failure, and an order without an order id. -/
def sampleRecords : List OrderRecord :=
  [some ("u1", "o1", ⟨"i1", "q"⟩), none, some ("u2", "", ⟨"i2", ""⟩)]

set_option maxRecDepth 4000 in
/-- Witness for `orderMap_bounded_and_flushed`. -/
theorem orderMap_bounded_and_flushed_witness :
    assocFind bigOrderMap ("u", "o1") = none ∧
    MAX_ORDER_NUM ≤ bigOrderMap.length ∧
    ("o1" : String) ≠ "" ∧
    ((ingestOrders sampleRecords).1.length ≤ MAX_ORDER_NUM ∧
     loadOrderItem_ "u" "o1" ⟨"i9", "q"⟩ bigOrderMap =
       ([(("u", "o1"), [⟨"i9", "q"⟩])], saveOrderMap_ bigOrderMap) ∧
     (callItems (parseOrderCalls sampleRecords)).Perm
       ((sampleRecords.filterMap id).map (fun r => r.2.2)) ∧
     (∀ (m' : OrderMap) (u' : String) (it' : OrderItem),
       loadOrderItem_ u' "" it' m' = (m', [(u', "", [it'])]))) := by
  have hfresh : assocFind bigOrderMap ("u", "o1") = none :=
    assocFind_replicate_none 1000 ("z", "z") [⟨"w", ""⟩] ("u", "o1") (by decide)
  have hfull : MAX_ORDER_NUM ≤ bigOrderMap.length := by
    simp [bigOrderMap, MAX_ORDER_NUM]
  exact ⟨hfresh, hfull, by decide,
    orderMap_bounded_and_flushed sampleRecords bigOrderMap "u" "o1" ⟨"i9", "q"⟩
      hfresh hfull (by decide)⟩

end SF1R
